import Mathlib

/-!
# Verification of the comic_matcher entity-resolution engine

Shallow embedding of `comic_matcher/parser.py` and `comic_matcher/matcher.py`.
Strings are modelled as Lean `String` (a list of characters); Python regular
expressions are modelled by explicit scanning functions over `List Char`;
floating point scores are modelled by `ℚ` (every score in the code is a small
decimal constant, so rational arithmetic is exact).  The character classes
`\d`, `\w`, `\s` are modelled by their ASCII meaning, and `.` is modelled as
matching any character (titles containing newlines are out of scope).
-/

set_option maxRecDepth 4000

/-- The character class `\s` (ASCII whitespace, as matched by Python `\s`
and stripped by `str.strip()`). -/
def isSpaceChar (c : Char) : Bool :=
  c = ' ' || c = '\t' || c = '\n' || c = '\r' || c = '\x0b' || c = '\x0c'

/-- The character class `\d` (ASCII digits). -/
def isDigitChar (c : Char) : Bool :=
  '0' ≤ c && c ≤ '9'

/-- The character class `\w` (ASCII word characters). -/
def isWordChar (c : Char) : Bool :=
  c.isAlpha || isDigitChar c || c = '_'

/-- Python `str.lower()` (ASCII case folding). -/
def lowerStr (s : String) : String :=
  String.mk (s.data.map Char.toLower)

/-- Python `str.strip()`: drop whitespace from both ends. -/
def stripChars (l : List Char) : List Char :=
  ((l.dropWhile isSpaceChar).reverse.dropWhile isSpaceChar).reverse

/-- An apostrophe character, used in a few fixed vocabulary strings. -/
def aposChar : Char := Char.ofNat 39

/-- The literal string `marvel's` from the parser's prefix list. -/
def marvelAposStr : String := "marvel" ++ String.singleton aposChar ++ "s"

/-- The literal string `dc's` from the parser's prefix list. -/
def dcAposStr : String := "dc" ++ String.singleton aposChar ++ "s"

/-- The literal string `director's cut` from the parser's special-identifier list. -/
def dirCutStr : String := "director" ++ String.singleton aposChar ++ "s cut"

/-- Case-insensitive prefix test: the (lowercase) pattern chars match the
head of the text after lowercasing each text character. -/
def ciStartsWith : List Char → List Char → Bool
  | [], _ => true
  | _ :: _, [] => false
  | p :: ps, c :: cs => p == c.toLower && ciStartsWith ps cs

/-- Word-boundary test for the character preceding a match position
(`\b` before a pattern that starts with a word character). -/
def boundaryOk : Option Char → Bool
  | none => true
  | some c => !isWordChar c

/-- `year_pattern = \((\d{4})\)` matched at the head of the text: returns the
captured four digits. -/
def yearAt : List Char → Option String
  | '(' :: a :: b :: c :: d :: ')' :: _ =>
    if isDigitChar a && isDigitChar b && isDigitChar c && isDigitChar d then
      some (String.mk [a, b, c, d])
    else none
  | _ => none

/-- `year_pattern.search`: leftmost match anywhere in the text. -/
def yearSearch : List Char → Option String
  | [] => none
  | c :: rest =>
    match yearAt (c :: rest) with
    | some y => some y
    | none => yearSearch rest

/-- `year_pattern.sub('', ·)`: remove every (leftmost, non-overlapping)
`(dddd)` match.  The fuel is the input length; every step consumes at
least one character, so it never runs out. -/
def yearSubAux : Nat → List Char → List Char
  | 0, l => l
  | _ + 1, [] => []
  | f + 1, c :: rest =>
    match yearAt (c :: rest) with
    | some _ => yearSubAux f (rest.drop 5)
    | none => c :: yearSubAux f rest

/-- See `yearSubAux`. -/
def yearSubAll (l : List Char) : List Char :=
  yearSubAux l.length l

/-- `\s*(\d+)` at the head of the text: returns (consumed length, digits),
failing when no digit follows the greedy run of whitespace. -/
def spacesDigits (l : List Char) : Option (Nat × List Char) :=
  let r := l.dropWhile isSpaceChar
  let ds := r.takeWhile isDigitChar
  if ds.isEmpty then none else some ((l.length - r.length) + ds.length, ds)

/-- The `volume` alternative of `volume_pattern` matched at the head. -/
def volumeAt (l : List Char) : Option (Nat × List Char) :=
  if ciStartsWith "volume".data l then
    (spacesDigits (l.drop 6)).map (fun p => (6 + p.1, p.2))
  else none

/-- `volume_pattern = (?i)(?:vol\.?|volume)\s*(\d+)` matched at the head of
the text: the `vol\.?` alternative is tried first (with the optional dot
taken greedily), then `volume`.  Returns (match length, captured digits). -/
def volAt (l : List Char) : Option (Nat × List Char) :=
  if ciStartsWith "vol".data l then
    match l.drop 3 with
    | '.' :: r2 =>
      (match spacesDigits r2 with
       | some (n, ds) => some (4 + n, ds)
       | none => volumeAt l)
    | r =>
      (match spacesDigits r with
       | some (n, ds) => some (3 + n, ds)
       | none => volumeAt l)
  else volumeAt l

/-- `volume_pattern.search`: leftmost match anywhere, returning the digits. -/
def volSearch : List Char → Option String
  | [] => none
  | c :: rest =>
    match volAt (c :: rest) with
    | some (_, ds) => some (String.mk ds)
    | none => volSearch rest

/-- `volume_pattern.sub('', ·)`, fuel-based like `yearSubAux`. -/
def volSubAux : Nat → List Char → List Char
  | 0, l => l
  | _ + 1, [] => []
  | f + 1, c :: rest =>
    match volAt (c :: rest) with
    | some (n, _) => volSubAux f (rest.drop (n - 1))
    | none => c :: volSubAux f rest

/-- See `volSubAux`. -/
def volSubAll (l : List Char) : List Char :=
  volSubAux l.length l

/-- `(?i)\b<identifier>\b` matched at the head of the text (`prev` is the
character just before the position; identifiers begin and end with a word
character, so the boundaries reduce to the neighbours being non-word). -/
def wordMatchAtPos (idc : List Char) (prev : Option Char) (l : List Char) : Bool :=
  ciStartsWith idc l && boundaryOk prev &&
    (match l.drop idc.length with
     | [] => true
     | c :: _ => !isWordChar c)

/-- `re.search((?i)\b<identifier>\b, ·) ≠ None`. -/
def searchWordAux (idc : List Char) : Option Char → List Char → Bool
  | _, [] => false
  | prev, c :: rest =>
    wordMatchAtPos idc prev (c :: rest) || searchWordAux idc (some c) rest

/-- See `searchWordAux`. -/
def searchWordStr (id : String) (s : String) : Bool :=
  searchWordAux id.data none s.data

/-- `re.sub((?i)\b<identifier>\b, '', ·)`: remove every match, threading the
previous character of the original text for the boundary test. -/
def subWordAux (idc : List Char) : Nat → Option Char → List Char → List Char
  | 0, _, l => l
  | _ + 1, _, [] => []
  | f + 1, prev, c :: rest =>
    if wordMatchAtPos idc prev (c :: rest) then
      subWordAux idc f (((c :: rest).take idc.length).getLast?) (rest.drop (idc.length - 1))
    else c :: subWordAux idc f (some c) rest

/-- See `subWordAux`. -/
def subWordAll (idc : List Char) (l : List Char) : List Char :=
  subWordAux idc l.length none l

/-- `issue_pattern = #(\d+\.?\d*)` matched at the head of the text.  Returns
(match length, first digit of the capture, rest of the capture); the capture
is split so that its non-emptiness is visible in the type. -/
def issueMatchAt : List Char → Option (Nat × Char × List Char)
  | '#' :: d :: rest =>
    if isDigitChar d then
      let ds1 := rest.takeWhile isDigitChar
      (match rest.drop ds1.length with
       | '.' :: r2 =>
         let ds2 := r2.takeWhile isDigitChar
         some (2 + ds1.length + 1 + ds2.length, d, ds1 ++ '.' :: ds2)
       | _ => some (2 + ds1.length, d, ds1))
    else none
  | _ => none

/-- `issue_pattern.search`, returning the captured group. -/
def issueSearchAux : List Char → Option String
  | [] => none
  | c :: rest =>
    match issueMatchAt (c :: rest) with
    | some (_, d, g) => some (String.mk (d :: g))
    | none => issueSearchAux rest

/-- `issue_pattern.sub('', ·)`, fuel-based. -/
def issueSubAux : Nat → List Char → List Char
  | 0, l => l
  | _ + 1, [] => []
  | f + 1, c :: rest =>
    match issueMatchAt (c :: rest) with
    | some (n, _, _) => issueSubAux f (rest.drop (n - 1))
    | none => c :: issueSubAux f rest

/-- See `issueSubAux`. -/
def issueSubAll (l : List Char) : List Char :=
  issueSubAux l.length l

/-- `re.sub(r"\s+", ' ', ·)`: collapse every whitespace run to one space.
The flag records whether the previous character was whitespace. -/
def collapseWsAux : Bool → List Char → List Char
  | _, [] => []
  | prevSpace, c :: rest =>
    if isSpaceChar c then
      (if prevSpace then collapseWsAux true rest else ' ' :: collapseWsAux true rest)
    else c :: collapseWsAux false rest

/-- See `collapseWsAux`. -/
def collapseWs (l : List Char) : List Char :=
  collapseWsAux false l

/-- Python `sep in s` for a non-empty separator: substring containment. -/
def containsSub (pat : List Char) : List Char → Bool
  | [] => pat.isEmpty
  | c :: rest => pat.isPrefixOf (c :: rest) || containsSub pat rest

/-- Python `s.split(sep)[0]`: the text before the first occurrence of `sep`. -/
def splitFirstSub (sep : List Char) : List Char → List Char
  | [] => []
  | c :: rest => if sep.isPrefixOf (c :: rest) then [] else c :: splitFirstSub sep rest

/-- Python `s.replace(pat, '')` for a non-empty `pat`: remove every leftmost,
non-overlapping occurrence.  Fuel-based like the other scanners. -/
def removeAllAux (pat : List Char) : Nat → List Char → List Char
  | 0, l => l
  | _ + 1, [] => []
  | f + 1, c :: rest =>
    if pat.isPrefixOf (c :: rest) then removeAllAux pat f (rest.drop (pat.length - 1))
    else c :: removeAllAux pat f rest

/-- See `removeAllAux`. -/
def removeAllSub (pat : List Char) (l : List Char) : List Char :=
  removeAllAux pat l.length l

/-- Python `s.split(ch, 1)` when `ch in s`: the parts before and after the
first occurrence of the character. -/
def breakAtChar (ch : Char) : List Char → Option (List Char × List Char)
  | [] => none
  | c :: rest =>
    if c = ch then some ([], rest)
    else (breakAtChar ch rest).map (fun p => (c :: p.1, p.2))

/-- Python `s.replace('.', '', 1)`: remove the first dot, if any. -/
def removeFirstDot : List Char → List Char
  | [] => []
  | '.' :: rest => rest
  | c :: rest => c :: removeFirstDot rest

/-- Python `str.isdigit()` (ASCII model): non-empty and all digits. -/
def pyIsDigitStr (s : String) : Bool :=
  !s.data.isEmpty && s.data.all isDigitChar

/-- Python `str.split()`: split on whitespace runs, dropping empty tokens.
Fuel-based; every produced token is non-empty by construction. -/
def splitWsAux : Nat → List Char → List String
  | 0, _ => []
  | _ + 1, [] => []
  | f + 1, c :: rest =>
    if isSpaceChar c then splitWsAux f rest
    else
      String.mk (c :: rest.takeWhile (fun x => !isSpaceChar x))
        :: splitWsAux f (rest.dropWhile (fun x => !isSpaceChar x))

/-- See `splitWsAux`. -/
def splitWsStr (s : String) : List String :=
  splitWsAux s.data.length s.data

/-! ## ComicTitleParser (`parser.py`) -/

/-- The parsed components returned by `ComicTitleParser.parse`. -/
structure TitleComponents where
  main_title : String
  volume : String
  year : String
  subtitle : String
  special : String
  clean_title : String
deriving DecidableEq

/-- `self.common_prefixes` of `ComicTitleParser`. -/
def common_prefixes : List String :=
  ["the", "marvels", marvelAposStr, "dc", dcAposStr, "uncanny",
   "amazing", "spectacular", "astonishing", "all-new", "all new"]

/-- `self.special_identifiers` of `ComicTitleParser`. -/
def special_identifiers : List String :=
  ["annual", "special", "one-shot", "limited series",
   "variant", dirCutStr, "preview", "giant-size"]

/-- `ComicTitleParser._clean_title`: lowercase; strip year, volume and
special-identifier patterns; strip `#<digits>` issue markers; map every
character other than word characters, whitespace and hyphen to a space;
collapse whitespace; trim. -/
def clean_title (title : String) : String :=
  let c1 := (lowerStr title).data
  let c2 := yearSubAll c1
  let c3 := volSubAll c2
  let c4 := special_identifiers.foldl (fun cl id => subWordAll id.data cl) c3
  let c5 := issueSubAll c4
  let c6 := c5.map (fun c => if isWordChar c || isSpaceChar c || c == '-' then c else ' ')
  String.mk (stripChars (collapseWs c6))

/-- The first stage of `ComicTitleParser.parse` on a non-empty title: trim,
then extract-and-remove the year and the volume marker.  Returns
(year, volume, remaining working title). -/
def parseStage (title : String) : String × String × String :=
  let ct0 := String.mk (stripChars title.data)
  let yearRes := yearSearch ct0.data
  let ct1 :=
    match yearRes with
    | some _ => String.mk (stripChars (yearSubAll ct0.data))
    | none => ct0
  let volRes := volSearch ct1.data
  let ct2 :=
    match volRes with
    | some _ => String.mk (stripChars (volSubAll ct1.data))
    | none => ct1
  (yearRes.getD "", volRes.getD "", ct2)

/-- The special-identifier scan of `ComicTitleParser.parse`: try the
identifiers in list order; the first one found (case-insensitively, as a
whole word) is recorded (lowercased) and every occurrence removed, and the
loop breaks.  Returns (special, remaining working title). -/
def extractSpecial : List String → String → String × String
  | [], cl => ("", cl)
  | id :: rest, cl =>
    if searchWordStr id cl then
      (lowerStr id, String.mk (stripChars (subWordAll id.data cl.data)))
    else extractSpecial rest cl

/-- `ComicTitleParser._split_title_and_subtitle`. -/
def split_title_and_subtitle (t : String) : String × String :=
  match breakAtChar ':' t.data with
  | some (before, after) => (String.mk (stripChars before), String.mk (stripChars after))
  | none =>
    match breakAtChar '(' t.data with
    | some (before, after) =>
      if (yearSearch t.data).isNone then
        match breakAtChar ')' after with
        | some (mid, _) =>
          let main := String.mk (stripChars before)
          let sub := String.mk (stripChars mid)
          if (volAt sub.data).isSome then (main, "") else (main, sub)
        | none => (t, "")
      else (t, "")
    | none => (t, "")

/-- `ComicTitleParser._normalize_title`: case-insensitively strip the first
matching leading prefix (followed by a space) from the fixed list. -/
def normalizeTitleAux : List String → String → String
  | [], t => t
  | p :: ps, t =>
    if (p.data ++ [' ']).isPrefixOf (lowerStr t).data then
      String.mk (t.data.drop (p.data.length + 1))
    else normalizeTitleAux ps t

/-- See `normalizeTitleAux`. -/
def normalize_title (t : String) : String :=
  normalizeTitleAux common_prefixes t

/-- `ComicTitleParser.parse`.  Non-string input (outside this string model)
and the empty string both yield the all-empty record. -/
def parse (title : String) : TitleComponents :=
  if title = "" then ⟨"", "", "", "", "", ""⟩
  else
    let st := parseStage title
    let sp := extractSpecial special_identifiers st.2.2
    let ms := split_title_and_subtitle sp.2
    { main_title := normalize_title ms.1
      volume := st.2.1
      year := st.1
      subtitle := ms.2
      special := sp.1
      clean_title := clean_title title }

/-- `ComicTitleParser.extract_issue_number`: a bare integer / one-decimal
number is returned unchanged; else the capture of a `#<number>` pattern;
else a numeric last whitespace token; else `none`. -/
def extract_issue_number (text : String) : Option String :=
  if text != "" && pyIsDigitStr (String.mk (removeFirstDot text.data)) then some text
  else
    match issueSearchAux text.data with
    | some g => some g
    | none =>
      match (splitWsStr text).getLast? with
      | some w =>
        if pyIsDigitStr (String.mk (removeFirstDot w.data)) then some w else none
      | none => none

/-! ## ComicMatcher comparators (`matcher.py`) -/

/-- `banned_terms` of `ComicMatcher._clean_title_for_hash`. -/
def banned_terms : List String :=
  ["marvel", "comics", "vol", "comic", "book", "direct", "edition",
   "newstand", "variant", "polybagged", "sealed", "foil",
   "epilogue", "  ", "newsstand", "vf", "nm", "condition", "unread"]

/-- `separators` of `ComicMatcher._clean_title_for_hash`. -/
def hashSeparators : List String := ["::", "("]

/-- `ComicMatcher._clean_title_for_hash`: lowercase, truncate at the first
separator, delete the banned terms in list order, delete every character
that is a digit or not a word/whitespace character, trim, lowercase.
Non-string input (outside this string model) returns the empty string. -/
def clean_title_for_hash (title : String) : String :=
  let t1 := (lowerStr title).data
  let t2 := hashSeparators.foldl
    (fun t sep => if containsSub sep.data t then splitFirstSub sep.data t else t) t1
  let t3 := banned_terms.foldl
    (fun t term => if containsSub term.data t then removeAllSub term.data t else t) t2
  let t4 := t3.filter (fun c => (isWordChar c || isSpaceChar c) && !isDigitChar c)
  lowerStr (String.mk (stripChars t4))

/-- The fuzzy-hash consultation at the top of `ComicMatcher._compare_titles`:
skipped when the cache is empty, otherwise the key is looked up under both
orderings of the cleaned titles. -/
def cacheScore (cache : List (String × ℚ)) (t1 t2 : String) : Option ℚ :=
  if cache.isEmpty then none
  else
    let h1 := clean_title_for_hash t1
    let h2 := clean_title_for_hash t2
    match List.lookup (h1 ++ "|" ++ h2) cache with
    | some v => some v
    | none => List.lookup (h2 ++ "|" ++ h1) cache

/-- `x_pattern = x-[a-z]+` matched at the head of the text. -/
def xAt : List Char → Option String
  | 'x' :: '-' :: c :: rest =>
    if 'a' ≤ c && c ≤ 'z' then
      some (String.mk ('x' :: '-' :: c :: rest.takeWhile (fun d => 'a' ≤ d && d ≤ 'z')))
    else none
  | _ => none

/-- `x_pattern.findall(·)[0]`: the leftmost `x-<word>` token, if any. -/
def xFirstAux : List Char → Option String
  | [] => none
  | c :: rest =>
    match xAt (c :: rest) with
    | some m => some m
    | none => xFirstAux rest

/-- See `xFirstAux`. -/
def xFirst (s : String) : Option String := xFirstAux s.data

/-- The X-brand veto test: both sides have an `x-` token and the first
tokens differ (`x_matches1 and x_matches2 and x_matches1[0] != x_matches2[0]`). -/
def xVeto : Option String → Option String → Bool
  | some a, some b => a != b
  | _, _ => false

/-- `prefixes` of `ComicMatcher._compare_titles`. -/
def title_prefixes : List String :=
  ["the", "uncanny", "all-new", "all new", "amazing", "spectacular"]

/-- `re.match(r'^' + p + r'\s+', s, re.IGNORECASE) ≠ None`. -/
def prefMatches (p : String) (s : String) : Bool :=
  ciStartsWith p.data s.data &&
    (match s.data.drop p.data.length with
     | c :: _ => isSpaceChar c
     | [] => false)

/-- `prefix_pattern.sub('', s)`: remove the leading prefix and the greedy
run of whitespace after it (identity when the pattern does not match). -/
def prefStripWs (p : String) (s : String) : String :=
  if prefMatches p s then String.mk ((s.data.drop p.data.length).dropWhile isSpaceChar)
  else s

/-- One iteration of the asymmetric-prefix loop of `_compare_titles`:
strip the prefix from a side only when the other side does not start with
it; the second test uses the already-updated first side, as in the code. -/
def prefixStep (p : String) (cs : String × String) : String × String :=
  let c1 := if prefMatches p cs.1 && !prefMatches p cs.2 then prefStripWs p cs.1 else cs.1
  let c2 := if prefMatches p cs.2 && !prefMatches p c1 then prefStripWs p cs.2 else cs.2
  (c1, c2)

/-- The body of `ComicMatcher._compare_titles` after a cache miss, on the
two clean titles: exact-match short circuit, X-brand veto, asymmetric
prefix equalisation, final string-similarity metric `jw`. -/
def compareTitlesBody (jw : String → String → ℚ) (clean1 clean2 : String) : ℚ :=
  if clean1 = clean2 then 1
  else if xVeto (xFirst clean1) (xFirst clean2) then 0
  else
    let pr := title_prefixes.foldl (fun cs p => prefixStep p cs) (clean1, clean2)
    jw pr.1 pr.2

/-- `ComicMatcher._compare_titles`.  The final Jaro-Winkler metric comes from
the external `jellyfish` library and is passed as the parameter `jw`
(the spec describes it as a symmetric string-similarity score in `[0,1]`). -/
def compare_titles (jw : String → String → ℚ) (cache : List (String × ℚ))
    (t1 t2 : String) : ℚ :=
  match cacheScore cache t1 t2 with
  | some v => v
  | none => compareTitlesBody jw (parse t1).clean_title (parse t2).clean_title

/-- Python truthiness of an optional string (`None` and `""` are falsy). -/
def pyTruthyOptStr : Option String → Bool
  | some s => s != ""
  | none => false

/-- `ComicMatcher._compare_issues`: normalize both sides and return `1.0`
when `norm1 and norm2 and norm1 == norm2`, else `0.0`.  The inputs are the
raw issue fields (already strings in this model, matching `str(issue)`). -/
def compare_issues (issue1 issue2 : String) : ℚ :=
  let norm1 := extract_issue_number issue1
  let norm2 := extract_issue_number issue2
  if pyTruthyOptStr norm1 && pyTruthyOptStr norm2 && norm1 == norm2 then 1 else 0

/-- A Python value flowing into `ComicMatcher._compare_years`
(`Union[str, int]`, with `None` for a missing year). -/
inductive PyVal where
  | vint (n : ℤ)
  | vstr (s : String)
  | vnone
deriving DecidableEq

/-- Python truthiness of a `PyVal`. -/
def pyTruthy : PyVal → Bool
  | .vint n => n != 0
  | .vstr s => s != ""
  | .vnone => false

/-- Digits to a natural number. -/
def natFromDigits (l : List Char) : ℕ :=
  l.foldl (fun acc c => 10 * acc + (c.toNat - '0'.toNat)) 0

/-- Python `int(s)` on a string: strip whitespace, optional sign, digits
(underscore digit grouping is not modelled); `none` models `ValueError`. -/
def pyIntOfStr (s : String) : Option ℤ :=
  let core : List Char → Option ℤ := fun ds =>
    if !ds.isEmpty && ds.all isDigitChar then some (Int.ofNat (natFromDigits ds)) else none
  match stripChars s.data with
  | '+' :: ds => core ds
  | '-' :: ds => (core ds).map Neg.neg
  | ds => core ds

/-- Python `int(·)` on a `PyVal`; `none` models the raised
`ValueError`/`TypeError`. -/
def pyIntCast : PyVal → Option ℤ
  | .vint n => some n
  | .vstr s => pyIntOfStr s
  | .vnone => none

/-- Python `str(·)` on a `PyVal`. -/
def pyStr : PyVal → String
  | .vint n => toString n
  | .vstr s => s
  | .vnone => "None"

/-- `y = int(year) if year else None` inside the `try` block of
`_compare_years`: `some none` is Python `None`, `none` is a raised
exception. -/
def tryCastYear (y : PyVal) : Option (Option ℤ) :=
  if pyTruthy y then (pyIntCast y).map some else some none

/-- `\b(19|20)\d{2}\b` matched at the head of the text (the preceding
boundary is checked by the caller). -/
def yearNumAt : List Char → Option ℤ
  | a :: b :: c :: d :: rest =>
    if ((a == '1' && b == '9') || (a == '2' && b == '0')) && isDigitChar c && isDigitChar d
        && (match rest with | [] => true | e :: _ => !isWordChar e) then
      some (Int.ofNat (natFromDigits [a, b, c, d]))
    else none
  | _ => none

/-- `re.search(r'\b(19|20)\d{2}\b', ·)`: leftmost match, as an integer. -/
def yearRegexAux : Option Char → List Char → Option ℤ
  | _, [] => none
  | prev, c :: rest =>
    match (if boundaryOk prev then yearNumAt (c :: rest) else none) with
    | some y => some y
    | none => yearRegexAux (some c) rest

/-- See `yearRegexAux`. -/
def yearRegexSearch (s : String) : Option ℤ :=
  yearRegexAux none s.data

/-- `classic_decades` of `ComicMatcher._compare_years`. -/
def classic_decades : List ℤ := [1960, 1970, 1980, 1990]

/-- The reprint heuristic of `_compare_years`. -/
def isReprint (a b : ℤ) : Bool :=
  (decide (2000 ≤ a) && classic_decades.any (fun d => decide (d ≤ b) && decide (b < d + 10)))
    || (decide (2000 ≤ b) && classic_decades.any (fun d => decide (d ≤ a) && decide (a < d + 10)))

/-- `ComicMatcher._compare_years`.  The direct casts of both sides run in one
`try` block: when either raises, both sides are re-parsed with the year
regex over `str(·)`.  `(a - b).natAbs` is `abs(y1 - y2)`. -/
def compare_years (y1 y2 : PyVal) : ℚ :=
  let parsed : Option ℤ × Option ℤ :=
    match tryCastYear y1, tryCastYear y2 with
    | some a, some b => (a, b)
    | _, _ => (yearRegexSearch (pyStr y1), yearRegexSearch (pyStr y2))
  match parsed with
  | (some a, some b) =>
    if a = b then 1
    else if (a - b).natAbs ≤ 2 then 4/5
    else if isReprint a b then 7/10
    else 0
  | _ => 1/2

/-! ## The match pipeline (`ComicMatcher.match`)

`pandas.DataFrame` rows are modelled as Lean structures and the
`recordlinkage` indexers (an external library) are modelled from the spec;
the alternate-column fallback of `_prepare_dataframe` is schema plumbing
outside the model (records enter with a `title` and an `issue` field). -/

/-- A raw input record. -/
structure RawComic where
  title : String
  issue : String
deriving DecidableEq

/-- A row of the standardized DataFrame built by
`ComicMatcher._prepare_dataframe`. -/
structure PreparedComic where
  title : String
  issue : String
  parsed : TitleComponents
  normalized_issue : Option String
deriving DecidableEq

/-- `ComicMatcher._prepare_dataframe`: parse every title and normalize every
issue (`df['issue'].astype(str)` is the identity here since issues are
already strings). -/
def prepare_dataframe (comics : List RawComic) : List PreparedComic :=
  comics.map (fun c =>
    { title := c.title, issue := c.issue, parsed := parse c.title,
      normalized_issue := extract_issue_number c.issue })

/-- The `indexer_method` argument of `ComicMatcher.match`. -/
inductive IndexerMethod where
  | block
  | sortedneighbourhood
  | fullindex
deriving DecidableEq

/-- An indexed candidate pair: one (positional index, row) from each side. -/
abbrev IdxPair := (ℕ × PreparedComic) × (ℕ × PreparedComic)

/-- All cross pairs of two indexed row lists. -/
def allCross (es et : List (ℕ × PreparedComic)) : List IdxPair :=
  es.flatMap (fun a => et.map (fun b => (a, b)))

/-- Modelled from the spec: the `block` strategy of the external
`recordlinkage.Index` — a pair is a candidate when it satisfies any
predicate (union): equal first character of the parsed main title, or both
sides carrying equal normalized issues. -/
def blockPred (p : IdxPair) : Bool :=
  (p.1.2.parsed.main_title.data.take 1 == p.2.2.parsed.main_title.data.take 1)
    || (match p.1.2.normalized_issue, p.2.2.normalized_issue with
        | some a, some b => a == b
        | _, _ => false)

/-- String comparison used for sorting (by character code). -/
def leChars : List Char → List Char → Bool
  | [], _ => true
  | _ :: _, [] => false
  | a :: as, b :: bs =>
    if a.val < b.val then true
    else if b.val < a.val then false
    else leChars as bs

/-- Insertion into a list sorted by a string key. -/
def insertByKey (key : α → String) (x : α) : List α → List α
  | [] => [x]
  | y :: ys => if leChars (key x).data (key y).data then x :: y :: ys
               else y :: insertByKey key x ys

/-- Insertion sort by a string key. -/
def sortByKey (key : α → String) (l : List α) : List α :=
  l.foldr (insertByKey key) []

/-- Modelled from the spec: cross pairs whose positions in the two sorted
lists are within the window `w`. -/
def windowPairs (w : ℕ) (ls lt : List (ℕ × PreparedComic)) : List IdxPair :=
  (ls.enum).flatMap (fun a =>
    ((lt.enum).filter
      (fun b => decide ((if a.1 ≤ b.1 then b.1 - a.1 else a.1 - b.1) ≤ w))).map
      (fun b => (a.2, b.2)))

/-- Deduplicate candidate pairs by their (source index, target index) key. -/
def dedupPairs : List IdxPair → List (ℕ × ℕ) → List IdxPair
  | [], _ => []
  | p :: rest, seen =>
    if seen.contains (p.1.1, p.2.1) then dedupPairs rest seen
    else p :: dedupPairs rest ((p.1.1, p.2.1) :: seen)

/-- Modelled from the spec: candidate-pair generation by the external
`recordlinkage.Index` for the three strategies of `ComicMatcher.match`. -/
def genCandidatePairs (m : IndexerMethod) (es et : List (ℕ × PreparedComic)) :
    List IdxPair :=
  match m with
  | .fullindex => allCross es et
  | .block => (allCross es et).filter blockPred
  | .sortedneighbourhood =>
    let sS := sortByKey (fun e => e.2.parsed.main_title) es
    let sT := sortByKey (fun e => e.2.parsed.main_title) et
    let tw := windowPairs 3 sS sT
    let isS := sortByKey (fun e => e.2.normalized_issue.getD "")
      (es.filter (fun e => e.2.normalized_issue.isSome))
    let isT := sortByKey (fun e => e.2.normalized_issue.getD "")
      (et.filter (fun e => e.2.normalized_issue.isSome))
    dedupPairs (tw ++ windowPairs 1 isS isT) []

/-- The weighted aggregation of `ComicMatcher.match`: weights
`title_sim 0.5, issue_match 0.5, year_sim 0.2`; the weight of an absent
column is excluded from the divisor; when the total weight is zero the
score is the mean of the present features. -/
def aggregateScore (title_sim issue_match : ℚ) (year_sim : Option ℚ) : ℚ :=
  let total : ℚ := 1/2 + 1/2 + (match year_sim with | some _ => (1 : ℚ)/5 | none => 0)
  if 0 < total then
    (title_sim * (1/2) + issue_match * (1/2)
      + (match year_sim with | some q => q * (1/5) | none => 0)) / total
  else
    (title_sim + issue_match + year_sim.getD 0)
      / (2 + (match year_sim with | some _ => (1 : ℚ) | none => 0))

/-- A row of the result of `ComicMatcher.match` (the merged source/target
record columns are schema plumbing outside the model). -/
structure MatchRow where
  source_idx : ℕ
  target_idx : ℕ
  similarity : ℚ
  title_sim : ℚ
  issue_match : ℚ
  year_sim : Option ℚ
deriving DecidableEq

/-- The scored candidate rows of `ComicMatcher.match`, before the threshold
filter.  `_prepare_dataframe` always creates the `parsed_year` column
(possibly holding empty strings), so the `year_sim` comparator is always
added and every feature vector carries a `year_sim` component. -/
def scoredRows (jw : String → String → ℚ) (cache : List (String × ℚ))
    (source target : List RawComic) (m : IndexerMethod) : List MatchRow :=
  let dfS := prepare_dataframe source
  let dfT := prepare_dataframe target
  let pairs := genCandidatePairs m dfS.enum dfT.enum
  pairs.map (fun p =>
    let tSim := compare_titles jw cache p.1.2.title p.2.2.title
    let iMatch := compare_issues p.1.2.issue p.2.2.issue
    let ySim : Option ℚ :=
      some (compare_years (.vstr p.1.2.parsed.year) (.vstr p.2.2.parsed.year))
    { source_idx := p.1.1, target_idx := p.2.1,
      similarity := aggregateScore tSim iMatch ySim,
      title_sim := tSim, issue_match := iMatch, year_sim := ySim })

/-- `ComicMatcher.match`: score the candidate pairs and keep the rows at or
above the threshold (an empty list when nothing qualifies). -/
def matchComics (jw : String → String → ℚ) (cache : List (String × ℚ))
    (source target : List RawComic) (threshold : ℚ) (m : IndexerMethod) :
    List MatchRow :=
  (scoredRows jw cache source target m).filter (fun r => decide (threshold ≤ r.similarity))

/-- Python `dict[key] = value` on an association list: overwrite in place or
append. -/
def dictInsert (k : String) (v : ℚ) : List (String × ℚ) → List (String × ℚ)
  | [] => [(k, v)]
  | (k2, v2) :: rest => if k2 == k then (k, v) :: rest else (k2, v2) :: dictInsert k v rest

/-- `ComicMatcher.update_fuzzy_hash`: store the similarity under the
`h1|h2` key only when both cleaned titles are non-empty (truthy). -/
def update_fuzzy_hash (cache : List (String × ℚ)) (title1 title2 : String)
    (similarity : ℚ) : List (String × ℚ) :=
  let hash_key1 := clean_title_for_hash title1
  let hash_key2 := clean_title_for_hash title2
  if hash_key1 != "" && hash_key2 != "" then
    dictInsert (hash_key1 ++ "|" ++ hash_key2) similarity cache
  else cache

/-! ## Theorems -/

attribute [local semireducible] Rat.mul Rat.inv Rat.add Rat.sub

/-- A fixed stand-in for the external Jaro-Winkler metric, used to
instantiate witnesses (the cache and veto paths never consult it). -/
def jw0 : String → String → ℚ := fun _ _ => 0

/-- A lookup hit means the association list is non-empty. -/
theorem lookup_some_not_isEmpty {k : String} {v : ℚ} {cache : List (String × ℚ)}
    (h : List.lookup k cache = some v) : cache.isEmpty = false := by
  cases cache with
  | nil => simp [List.lookup] at h
  | cons a l => rfl

/-- Claim C10: when either title's hash-cleaned form is empty,
`update_fuzzy_hash` leaves the cache mapping completely unchanged. -/
theorem update_fuzzy_hash_noop (cache : List (String × ℚ)) (t1 t2 : String) (sim : ℚ)
    (h : clean_title_for_hash t1 = "" ∨ clean_title_for_hash t2 = "") :
    update_fuzzy_hash cache t1 t2 sim = cache := by
  unfold update_fuzzy_hash
  rcases h with h | h <;> simp [h]

/-- Witness for C10: the all-digits title `"123"` hash-cleans to the empty
string, so the update is a no-op and a later lookup still misses. -/
theorem update_fuzzy_hash_noop_witness :
    clean_title_for_hash "123" = ""
      ∧ update_fuzzy_hash [("x", 1)] "123" "Batman" (1/2) = [("x", 1)] :=
  ⟨by decide, update_fuzzy_hash_noop [("x", 1)] "123" "Batman" (1/2) (Or.inl (by decide))⟩

/-- Claim C4: a cache hit under either ordering of the hash-cleaned titles is
returned immediately; the result does not depend on the string-similarity
metric (quantified over every `jw`), so no similarity evaluation happens. -/
theorem compare_titles_cache_hit (jw : String → String → ℚ) (cache : List (String × ℚ))
    (t1 t2 : String) (v : ℚ)
    (h : List.lookup (clean_title_for_hash t1 ++ "|" ++ clean_title_for_hash t2) cache = some v
       ∨ (List.lookup (clean_title_for_hash t1 ++ "|" ++ clean_title_for_hash t2) cache = none
          ∧ List.lookup (clean_title_for_hash t2 ++ "|" ++ clean_title_for_hash t1) cache
              = some v)) :
    compare_titles jw cache t1 t2 = v := by
  unfold compare_titles cacheScore
  rcases h with h | ⟨h1, h2⟩
  · simp [lookup_some_not_isEmpty h, h]
  · simp [lookup_some_not_isEmpty h2, h1, h2]

/-- Witness for C4: a one-entry cache hit on titles `"a"` and `"b"`. -/
theorem compare_titles_cache_hit_witness :
    compare_titles jw0 [("a|b", 1/2)] "a" "b" = 1/2 :=
  compare_titles_cache_hit jw0 [("a|b", 1/2)] "a" "b" (1/2) (Or.inl (by decide))

/-- Claim C5: with no cache hit, unequal clean titles and differing first
`x-<word>` tokens on the two sides, the comparator returns exactly `0`. -/
theorem compare_titles_x_veto (jw : String → String → ℚ) (cache : List (String × ℚ))
    (t1 t2 : String) (a b : String)
    (hc : cacheScore cache t1 t2 = none)
    (hne : (parse t1).clean_title ≠ (parse t2).clean_title)
    (h1 : xFirst (parse t1).clean_title = some a)
    (h2 : xFirst (parse t2).clean_title = some b)
    (hab : a ≠ b) :
    compare_titles jw cache t1 t2 = 0 := by
  unfold compare_titles
  rw [hc]
  unfold compareTitlesBody
  simp [hne, h1, h2, xVeto, hab]

/-- Witness for C5: `compare("X-Men: Something", "X-Force: Something Else")`
is `0.0` with an empty cache. -/
theorem compare_titles_x_veto_witness :
    compare_titles jw0 [] "X-Men: Something" "X-Force: Something Else" = 0 :=
  compare_titles_x_veto jw0 [] "X-Men: Something" "X-Force: Something Else"
    "x-men" "x-force" rfl (by decide) (by decide) (by decide) (by decide)

/-- One prefix-equalisation step commutes with swapping the two sides. -/
theorem prefixStep_swap (p : String) (a b : String) :
    prefixStep p (b, a) = ((prefixStep p (a, b)).2, (prefixStep p (a, b)).1) := by
  unfold prefixStep
  cases hA : prefMatches p a <;> cases hB : prefMatches p b <;> simp [hA, hB]

/-- The whole prefix-equalisation fold commutes with swapping the sides. -/
theorem foldl_prefixStep_swap (l : List String) (a b : String) :
    l.foldl (fun cs p => prefixStep p cs) (b, a)
      = ((l.foldl (fun cs p => prefixStep p cs) (a, b)).2,
         (l.foldl (fun cs p => prefixStep p cs) (a, b)).1) := by
  induction l generalizing a b with
  | nil => rfl
  | cons p ps ih =>
    simp only [List.foldl_cons]
    rw [prefixStep_swap, ih (prefixStep p (a, b)).1 (prefixStep p (a, b)).2]

/-- When the cache never maps the two orderings of a pair to different
scores, the double-ordered lookup is symmetric. -/
theorem cacheScore_symm (cache : List (String × ℚ)) (t1 t2 : String)
    (h : ∀ s t : String, ∀ u v : ℚ,
        List.lookup (s ++ "|" ++ t) cache = some u →
        List.lookup (t ++ "|" ++ s) cache = some v → u = v) :
    cacheScore cache t1 t2 = cacheScore cache t2 t1 := by
  unfold cacheScore
  cases he : cache.isEmpty
  · simp only [he, Bool.false_eq_true, if_false]
    cases h12 : List.lookup (clean_title_for_hash t1 ++ "|" ++ clean_title_for_hash t2) cache
      <;> cases h21 : List.lookup (clean_title_for_hash t2 ++ "|" ++ clean_title_for_hash t1) cache
      <;> simp [h12, h21]
    exact h _ _ _ _ h12 h21
  · simp [he]

/-- Claim C1 (amended): `_compare_titles` is symmetric for every metric `jw`
that is itself symmetric, provided the cache is consistent — it never holds
both orderings of a key pair with different scores.  (The code's
`update_fuzzy_hash` can produce an inconsistent cache, see the
counterexample.) -/
theorem compare_titles_symm (jw : String → String → ℚ) (cache : List (String × ℚ))
    (t1 t2 : String)
    (hjw : ∀ a b, jw a b = jw b a)
    (hcache : ∀ s t : String, ∀ u v : ℚ,
        List.lookup (s ++ "|" ++ t) cache = some u →
        List.lookup (t ++ "|" ++ s) cache = some v → u = v) :
    compare_titles jw cache t1 t2 = compare_titles jw cache t2 t1 := by
  have hbody : ∀ c1 c2 : String, compareTitlesBody jw c1 c2 = compareTitlesBody jw c2 c1 := by
    intro c1 c2
    unfold compareTitlesBody
    by_cases he : c1 = c2
    · simp [he]
    · have he' : ¬ c2 = c1 := fun hh => he hh.symm
      simp only [if_neg he, if_neg he']
      have hx : xVeto (xFirst c1) (xFirst c2) = xVeto (xFirst c2) (xFirst c1) := by
        cases xFirst c1 <;> cases xFirst c2 <;> simp [xVeto, bne, eq_comm]
      rw [hx]
      cases hv : xVeto (xFirst c2) (xFirst c1)
      · simp only [hv, Bool.false_eq_true, if_false]
        rw [foldl_prefixStep_swap]
        exact hjw _ _
      · simp [hv]
  unfold compare_titles
  rw [cacheScore_symm cache t1 t2 hcache]
  cases hcs : cacheScore cache t2 t1 with
  | some v => rfl
  | none => exact hbody _ _

/-- Counterexample for C1 as stated: a reachable cache holding both
orderings of the pair with different scores (two `update_fuzzy_hash` calls
with swapped arguments produce exactly this) makes the comparator
asymmetric. -/
theorem compare_titles_symm_cex :
    compare_titles jw0 [("a|b", 3/10), ("b|a", 7/10)] "a" "b"
      ≠ compare_titles jw0 [("a|b", 3/10), ("b|a", 7/10)] "b" "a" := by decide

/-- Witness for the amended C1 at an empty (trivially consistent) cache and
a constant (trivially symmetric) metric. -/
theorem compare_titles_symm_witness :
    compare_titles jw0 [] "a" "b" = compare_titles jw0 [] "b" "a" :=
  compare_titles_symm jw0 [] "a" "b" (fun _ _ => rfl)
    (by intro s t u v hu hv; simp [List.lookup] at hu)

/-- The year parse described by claim C6, per input: direct integer cast,
else the 4-digit `19xx/20xx` regex anywhere in the text. -/
def claimYearOf : PyVal → Option ℤ
  | .vint n => some n
  | .vstr s =>
    (match pyIntOfStr s with
     | some n => some n
     | none => yearRegexSearch s)
  | .vnone => none

/-- The year comparator described by claim C6, built on the claim's
per-input parse (to be compared against `compare_years`). -/
def claimCompareYears (y1 y2 : PyVal) : ℚ :=
  match claimYearOf y1, claimYearOf y2 with
  | some a, some b =>
    if a = b then 1
    else if (a - b).natAbs ≤ 2 then 4/5
    else if isReprint a b then 7/10
    else 0
  | _, _ => 1/2

/-- Counterexample for C6 as stated: for `("circa 1985", 150)` the claim's
per-input parsing yields years on both sides and predicts `0.0`, but the
code's joint `try` block falls back to the regex for both sides when the
cast of the string raises, loses the year `150`, and returns `0.5`. -/
theorem compare_years_cex :
    compare_years (.vstr "circa 1985") (.vint 150) = 1/2
      ∧ claimCompareYears (.vstr "circa 1985") (.vint 150) = 0 := by
  constructor <;> decide

/-- Claim C6 (amended): the claimed boundary values hold, and the claimed
table holds whenever no direct cast raises — in particular for non-zero
integer inputs; when a cast raises, both sides are re-parsed by the regex
over `str(·)`, which can turn a castable year into an absence (see the
counterexample). -/
theorem compare_years_table :
    compare_years (.vint 2010) (.vint 2012) = 4/5
    ∧ compare_years (.vint 2010) (.vint 1985) = 7/10
    ∧ compare_years (.vint 2010) (.vint 1950) = 0
    ∧ compare_years (.vint 2010) .vnone = 1/2
    ∧ ∀ n m : ℤ, n ≠ 0 → m ≠ 0 →
        compare_years (.vint n) (.vint m) =
          if n = m then 1
          else if (n - m).natAbs ≤ 2 then 4/5
          else if isReprint n m then 7/10
          else 0 := by
  refine ⟨by decide, by decide, by decide, by decide, ?_⟩
  intro n m hn hm
  unfold compare_years tryCastYear
  simp [pyTruthy, pyIntCast, bne, hn, hm]

/-- Witness for the amended C6 at a concrete pair of non-zero years. -/
theorem compare_years_table_witness :
    (3 : ℤ) ≠ 0 ∧ (9 : ℤ) ≠ 0 ∧ compare_years (.vint 3) (.vint 9) = 0 := by
  refine ⟨by decide, by decide, ?_⟩
  rw [compare_years_table.2.2.2.2 3 9 (by decide) (by decide)]
  decide

/-- The capture of the `#<number>` pattern is never the empty string. -/
theorem issueSearchAux_ne_empty :
    ∀ l g, issueSearchAux l = some g → g ≠ "" := by
  intro l
  induction l with
  | nil => intro g h; simp [issueSearchAux] at h
  | cons c rest ih =>
    intro g h
    unfold issueSearchAux at h
    cases hm : issueMatchAt (c :: rest) with
    | some t =>
      rw [hm] at h
      have hg : g = String.mk (t.2.1 :: t.2.2) := by
        cases t with
        | mk n u =>
          cases u with
          | mk d gs => exact (Option.some.injEq _ _ ▸ h).symm
      subst hg
      intro h0
      have := congrArg String.data h0
      simp at this
    | none =>
      rw [hm] at h
      exact ih g h

/-- `extract_issue_number` never returns `some ""`: each branch either
guards on non-emptiness or produces a capture with at least one digit. -/
theorem extract_issue_number_some_ne (t v : String)
    (h : extract_issue_number t = some v) : v ≠ "" := by
  unfold extract_issue_number at h
  by_cases hc : (t != "" && pyIsDigitStr (String.mk (removeFirstDot t.data))) = true
  · rw [if_pos hc] at h
    have hv : v = t := (Option.some.injEq _ _ ▸ h).symm
    subst hv
    exact bne_iff_ne.mp (Bool.and_elim_left hc)
  · rw [if_neg hc] at h
    cases hs : issueSearchAux t.data with
    | some g =>
      rw [hs] at h
      have hv : v = g := (Option.some.injEq _ _ ▸ h).symm
      subst hv
      exact issueSearchAux_ne_empty _ _ hs
    | none =>
      rw [hs] at h
      cases hw : (splitWsStr t).getLast? with
      | some w =>
        rw [hw] at h
        dsimp only at h
        by_cases hd : pyIsDigitStr (String.mk (removeFirstDot w.data)) = true
        · rw [if_pos hd] at h
          have hv : v = w := (Option.some.injEq _ _ ▸ h).symm
          subst hv
          intro h0
          subst h0
          simp [removeFirstDot, pyIsDigitStr] at hd
        · rw [if_neg hd] at h
          exact absurd h (by simp)
      | none =>
        rw [hw] at h
        exact absurd h (by simp)

/-- Claim C7: the issue comparator returns `1.0` exactly when both inputs
normalize to the same non-absent issue value, and `0.0` otherwise; the three
claimed boundary examples hold. -/
theorem compare_issues_iff :
    (∀ a b : String,
        (compare_issues a b = 1 ↔
          ∃ v, extract_issue_number a = some v ∧ extract_issue_number b = some v)
        ∧ (compare_issues a b = 1 ∨ compare_issues a b = 0))
    ∧ compare_issues "#142" "142" = 1
    ∧ compare_issues "Annual" "Special" = 0
    ∧ compare_issues "" "5" = 0 := by
  refine ⟨?_, by decide, by decide, by decide⟩
  intro a b
  constructor
  · constructor
    · intro h1
      unfold compare_issues at h1
      by_cases hc : (pyTruthyOptStr (extract_issue_number a)
          && pyTruthyOptStr (extract_issue_number b)
          && (extract_issue_number a == extract_issue_number b)) = true
      · have heq : extract_issue_number a = extract_issue_number b :=
          eq_of_beq (Bool.and_elim_right hc)
        have ht : pyTruthyOptStr (extract_issue_number a) = true :=
          Bool.and_elim_left (Bool.and_elim_left hc)
        cases he : extract_issue_number a with
        | none => rw [he] at ht; simp [pyTruthyOptStr] at ht
        | some s =>
          refine ⟨s, rfl, ?_⟩
          first
          | exact heq.symm
          | rw [← heq]; exact he
      · rw [if_neg hc] at h1
        exact absurd h1 (by norm_num)
    · rintro ⟨v, ha, hb⟩
      have hv := extract_issue_number_some_ne a v ha
      unfold compare_issues
      rw [ha, hb]
      simp [pyTruthyOptStr, hv]
  · unfold compare_issues
    by_cases hc : (pyTruthyOptStr (extract_issue_number a)
        && pyTruthyOptStr (extract_issue_number b)
        && (extract_issue_number a == extract_issue_number b)) = true
    · left; rw [if_pos hc]
    · right; rw [if_neg hc]

/-- Claim C8: the aggregate similarity is the weighted sum of the present
features divided by the sum of their weights, with weights `0.5, 0.5, 0.2`;
the claimed instance evaluates to exactly `0.85`; and every scored row's
similarity is this aggregate of its own feature values. -/
theorem aggregateScore_formula :
    aggregateScore (4/5) 1 (some (3/5)) = 17/20
    ∧ (∀ t i y : ℚ, aggregateScore t i (some y)
        = (t * (1/2) + i * (1/2) + y * (1/5)) / (1/2 + 1/2 + 1/5))
    ∧ (∀ t i : ℚ, aggregateScore t i none = (t * (1/2) + i * (1/2)) / (1/2 + 1/2))
    ∧ (∀ (jw : String → String → ℚ) cache src tgt m r,
        r ∈ scoredRows jw cache src tgt m →
        r.similarity = aggregateScore r.title_sim r.issue_match r.year_sim) := by
  refine ⟨by decide, ?_, ?_, ?_⟩
  · intro t i y
    unfold aggregateScore
    rw [if_pos (by norm_num)]
  · intro t i
    unfold aggregateScore
    rw [if_pos (by norm_num)]
    norm_num
  · intro jw cache src tgt m r hr
    unfold scoredRows at hr
    obtain ⟨p, _, rfl⟩ := List.mem_map.mp hr
    rfl

/-- Witness for C8: the Batman run's single row and its aggregate. -/
theorem aggregateScore_formula_witness :
    (⟨0, 0, 11/12, 1, 1, some (1/2)⟩ : MatchRow)
        ∈ scoredRows jw0 [] [⟨"Batman", "5"⟩] [⟨"Batman", "5"⟩] .fullindex
    ∧ (11/12 : ℚ) = aggregateScore 1 1 (some (1/2)) :=
  ⟨by decide, aggregateScore_formula.2.2.2 jw0 []
    [⟨"Batman", "5"⟩] [⟨"Batman", "5"⟩] .fullindex
    (⟨0, 0, 11/12, 1, 1, some (1/2)⟩ : MatchRow) (by decide)⟩

/-- Claim C2: every row of the result of `match` has similarity at or above
the caller-supplied threshold, and when no scored candidate reaches the
threshold, the result is the empty list (never an error: `matchComics` is a
total function). -/
theorem matchComics_threshold :
    (∀ (jw : String → String → ℚ) cache src tgt (thr : ℚ) m r,
        r ∈ matchComics jw cache src tgt thr m → thr ≤ r.similarity)
    ∧ (∀ (jw : String → String → ℚ) cache src tgt (thr : ℚ) m,
        (∀ r ∈ scoredRows jw cache src tgt m, r.similarity < thr) →
        matchComics jw cache src tgt thr m = []) := by
  constructor
  · intro jw cache src tgt thr m r hr
    unfold matchComics at hr
    exact of_decide_eq_true (List.mem_filter.mp hr).2
  · intro jw cache src tgt thr m h
    unfold matchComics
    refine List.filter_eq_nil_iff.mpr ?_
    intro r hr
    simpa using not_le.mpr (h r hr)

/-- Witness for C2: the Batman run at threshold `0.7` keeps its single row,
whose similarity `11/12` is above the threshold. -/
theorem matchComics_threshold_witness :
    (⟨0, 0, 11/12, 1, 1, some (1/2)⟩ : MatchRow)
        ∈ matchComics jw0 [] [⟨"Batman", "5"⟩] [⟨"Batman", "5"⟩] (7/10) .fullindex
    ∧ (7/10 : ℚ) ≤ (11/12 : ℚ) :=
  ⟨by decide, matchComics_threshold.1 jw0 []
    [⟨"Batman", "5"⟩] [⟨"Batman", "5"⟩] (7/10) .fullindex
    (⟨0, 0, 11/12, 1, 1, some (1/2)⟩ : MatchRow) (by decide)⟩

/-- Counterexample for C3 as stated: in a run where neither record carries a
parsed year, the feature vector still contains a `year_sim` component
(`0.5`), and the aggregate divisor still includes its `0.2` weight (the
similarity is `11/12`, not the `1.0` that a shrunken divisor would give) —
`_prepare_dataframe` always creates the `parsed_year` column. -/
theorem year_sim_present_cex :
    ((prepare_dataframe [⟨"Batman", "5"⟩]).map (fun p => p.parsed.year) = [""])
    ∧ ((scoredRows jw0 [] [⟨"Batman", "5"⟩] [⟨"Batman", "5"⟩] .fullindex).map
        (fun r => r.year_sim) = [some (1/2)])
    ∧ ((scoredRows jw0 [] [⟨"Batman", "5"⟩] [⟨"Batman", "5"⟩] .fullindex).map
        (fun r => r.similarity) = [11/12]) := by
  refine ⟨by decide, by decide, by decide⟩

/-- Claim C3 (amended): `year_sim` is present in every feature vector —
records without a year contribute the neutral score — and the `0.2` weight
is always part of the aggregate's divisor `1.2`. -/
theorem year_sim_always_present :
    ∀ (jw : String → String → ℚ) cache src tgt m r,
      r ∈ scoredRows jw cache src tgt m →
      r.year_sim.isSome = true
      ∧ r.similarity = (r.title_sim * (1/2) + r.issue_match * (1/2)
          + (r.year_sim.getD 0) * (1/5)) / (6/5) := by
  intro jw cache src tgt m r hr
  unfold scoredRows at hr
  obtain ⟨p, _, rfl⟩ := List.mem_map.mp hr
  refine ⟨rfl, ?_⟩
  show aggregateScore _ _ (some _) = _
  unfold aggregateScore
  rw [if_pos (by norm_num)]
  norm_num

/-- Witness for the amended C3 at the Batman run. -/
theorem year_sim_always_present_witness :
    (⟨0, 0, 11/12, 1, 1, some (1/2)⟩ : MatchRow)
        ∈ scoredRows jw0 [] [⟨"Batman", "5"⟩] [⟨"Batman", "5"⟩] .block
    ∧ (some ((1 : ℚ)/2)).isSome = true :=
  ⟨by decide, (year_sim_always_present jw0 []
    [⟨"Batman", "5"⟩] [⟨"Batman", "5"⟩] .block
    (⟨0, 0, 11/12, 1, 1, some (1/2)⟩ : MatchRow) (by decide)).1⟩

/-- The special scan returns either the empty marker or one (lowercased)
identifier from the list — at most one is ever extracted. -/
theorem extractSpecial_mem (ids : List String) (cl : String) :
    (extractSpecial ids cl).1 = "" ∨ (extractSpecial ids cl).1 ∈ ids.map lowerStr := by
  induction ids with
  | nil => left; rfl
  | cons id rest ih =>
    unfold extractSpecial
    by_cases h : searchWordStr id cl = true
    · right; simp [h]
    · rw [if_neg h]
      rcases ih with h1 | h1
      · left; exact h1
      · right; simp [h1]

/-- When the identifiers earlier in list order do not occur in the working
title and `id` does, the scan returns `id` (list order wins, regardless of
the position of the occurrences within the string). -/
theorem extractSpecial_first (l1 : List String) (id : String) (l2 : List String)
    (cl : String)
    (hnone : ∀ id2 ∈ l1, searchWordStr id2 cl = false)
    (hid : searchWordStr id cl = true) :
    (extractSpecial (l1 ++ id :: l2) cl).1 = lowerStr id := by
  induction l1 with
  | nil => simp [extractSpecial, hid]
  | cons a l ih =>
    have ha := hnone a (by simp)
    rw [List.cons_append]
    unfold extractSpecial
    rw [ha]
    simp only [Bool.false_eq_true, if_false]
    exact ih (fun x hx => hnone x (by simp [hx]))

/-- Claim C9: at most one special-issue identifier is ever extracted, and
the identifier recorded is the first one in list order among those
occurring as whole words in the working title — not the one appearing
earliest in the string. -/
theorem parse_special_list_order :
    (∀ t, (parse t).special = "" ∨ (parse t).special ∈ special_identifiers.map lowerStr)
    ∧ (∀ t (l1 : List String) (id : String) (l2 : List String),
        special_identifiers = l1 ++ id :: l2 →
        (∀ id2 ∈ l1, searchWordStr id2 (parseStage t).2.2 = false) →
        searchWordStr id (parseStage t).2.2 = true →
        (parse t).special = lowerStr id) := by
  constructor
  · intro t
    unfold parse
    by_cases ht : t = ""
    · rw [if_pos ht]; left; rfl
    · rw [if_neg ht]
      exact extractSpecial_mem _ _
  · intro t l1 id l2 hids hnone hid
    have ht : t ≠ "" := by
      intro h0
      subst h0
      rw [show (parseStage "").2.2 = "" from rfl] at hid
      simp [searchWordStr, searchWordAux] at hid
    unfold parse
    rw [if_neg ht]
    show (extractSpecial special_identifiers (parseStage t).2.2).1 = lowerStr id
    rw [hids]
    exact extractSpecial_first l1 id l2 _ hnone hid

/-- Witness for C9: in `"Special Annual"`, the identifier `special` occurs
earlier in the string, but `annual` is first in list order and wins. -/
theorem parse_special_list_order_witness :
    (parse "Special Annual").special = "annual" := by
  have h := parse_special_list_order.2 "Special Annual" [] "annual"
    ["special", "one-shot", "limited series", "variant", dirCutStr, "preview", "giant-size"]
    rfl (by intro id2 h2; simp at h2) (by decide)
  rw [h]
  decide

/-- Witness for C7: both sides normalize to `"7"`, so the comparator
returns `1.0` by the equivalence. -/
theorem compare_issues_iff_witness :
    compare_issues "7" "7" = 1 :=
  ((compare_issues_iff.1 "7" "7").1).mpr ⟨"7", by decide, by decide⟩
